import Mathlib

/-!
# Verification of the schema-extraction / model-generation engine

This file gives a shallow embedding of `scripts/modelgen/modelgen.go`
(emitted verbatim from `internal/generator/templates/tmpls/modelgen_script.tmpl`):
the statement splitter, the regex-based statement classifier, the column
extractor, the schema accumulator, the type mapper and the model emitter.

Strings are modelled as `List Char` (`Str`); all Go string helpers used by the
script (`strings.TrimSpace`, `strings.Fields`, `strings.Trim`, `strings.Split`,
`strings.Contains`, `strings.HasPrefix`, `strings.ToUpper/ToLower`) are embedded
for the ASCII inputs the DDL subset deals in.  The Go regular expressions are
embedded as explicit leftmost-first matchers (`findCreateTable`,
`findAlterAdd`, `findAlterAlter`, `findAlterDrop`, the `PRIMARY KEY (...)`
constraint matcher): each is a literal transcription of the corresponding
pattern in the source, with Go's preference order (try a greedy optional
group first, fall back without it) realised through `Option.orElse`.
-/

namespace Modelgen

/-- Strings of the embedded program, as explicit character lists. -/
abbrev Str := List Char

/-- Convert a Lean string literal into the `Str` representation. -/
def str (s : String) : Str := s.data

/-- Go `unicode.IsSpace` restricted to ASCII, as used by `strings.TrimSpace`
and `strings.Fields` (space, tab, newline, vertical tab, form feed, CR). -/
def goSpace (c : Char) : Bool :=
  c = ' ' ∨ c = '\t' ∨ c = '\n' ∨ c = '\x0b' ∨ c = '\x0c' ∨ c = '\x0d'

/-- The character class `\s` of Go's `regexp` package: `[\t\n\f\r ]`. -/
def regexSpace (c : Char) : Bool :=
  c = '\t' ∨ c = '\n' ∨ c = '\x0c' ∨ c = '\x0d' ∨ c = ' '

/-- Embeds `strings.TrimSpace`, right side: drop trailing whitespace. -/
def trimRightSpaces (s : Str) : Str := (s.reverse.dropWhile goSpace).reverse

/-- Embeds `strings.TrimSpace`: drop leading and trailing whitespace. -/
def trimSpace (s : Str) : Str := (trimRightSpaces s).dropWhile goSpace

/-- Embeds `strings.Split` on a single separator character. -/
def splitOnChar (sep : Char) : Str → List Str
  | [] => [[]]
  | c :: rest =>
    match splitOnChar sep rest with
    | [] => [[]]
    | p :: ps => if c = sep then [] :: p :: ps else (c :: p) :: ps

/-- Helper for `fields`: accumulate the current word (reversed). -/
def fieldsAux : Str → Str → List Str
  | [], cur => if cur = [] then [] else [cur.reverse]
  | c :: rest, cur =>
    if goSpace c then
      if cur = [] then fieldsAux rest [] else cur.reverse :: fieldsAux rest []
    else fieldsAux rest (c :: cur)

/-- Embeds `strings.Fields`: split around runs of whitespace, dropping empty words. -/
def fields (s : Str) : List Str := fieldsAux s []

/-- The cutset of `strings.Trim(identifier, "\"'` + "`" + `")` in
`cleanIdentifier`: double quote, single quote, backtick. -/
def quoteCutset (c : Char) : Bool :=
  c = '"' ∨ c = Char.ofNat 39 ∨ c = Char.ofNat 96

/-- Embeds `strings.Trim` with the quote cutset: strip any run of quote characters
from both ends. -/
def trimQuotes (s : Str) : Str :=
  ((s.dropWhile quoteCutset).reverse.dropWhile quoteCutset).reverse

/-- Embeds `cleanIdentifier` (modelgen.go): drop a schema qualification prefix
(keep the part after the last `.`), strip surrounding quote characters,
then trim whitespace. -/
def cleanIdentifier (identifier : Str) : Str :=
  let identifier :=
    if identifier.contains '.' then (splitOnChar '.' identifier).getLastD []
    else identifier
  trimSpace (trimQuotes identifier)

/-- Embeds `mapPostgreSQLTypeToGo` (modelgen.go): switch on the lower-cased SQL type
name, branching on nullability, with a string fallback for unknown types. -/
def mapPostgreSQLTypeToGo (pgType : Str) (isNullable : Bool) : Str :=
  let lowerType := pgType.map Char.toLower
  if lowerType ∈ [str "integer", str "smallint", str "int", str "smallserial", str "serial"] then
    if isNullable then str "*int" else str "int"
  else if lowerType ∈ [str "bigint", str "bigserial"] then
    if isNullable then str "*int64" else str "int64"
  else if lowerType ∈ [str "numeric", str "decimal", str "real", str "double precision",
      str "float", str "float4", str "float8"] then
    if isNullable then str "*float64" else str "float64"
  else if lowerType ∈ [str "boolean", str "bool"] then
    if isNullable then str "*bool" else str "bool"
  else if lowerType ∈ [str "text", str "character varying", str "varchar", str "char",
      str "character", str "citext"] then
    if isNullable then str "*string" else str "string"
  else if lowerType ∈ [str "date", str "timestamp", str "timestamp with time zone",
      str "timestamp without time zone", str "timestamptz"] then
    if isNullable then str "*time.Time" else str "time.Time"
  else if lowerType = str "uuid" then
    if isNullable then str "*string" else str "string"
  else if lowerType ∈ [str "jsonb", str "json"] then
    str "json.RawMessage"
  else
    if isNullable then str "*string" else str "string"

/-- Embeds `ColumnInfo` (modelgen.go): column information.  The Go zero values of the
fields not set at construction time are the empty string and `false`. -/
structure ColumnInfo where
  Name : Str := []
  GoName : Str := []
  «Type» : Str := []
  GoType : Str := []
  IsNullable : Bool := false
  IsPrimaryKey : Bool := false
  Tags : Str := []
deriving DecidableEq, Repr

/-- Embeds `TableInfo` (modelgen.go): table name and ordered column list. -/
structure TableInfo where
  TableName : Str
  Columns : List ColumnInfo
deriving DecidableEq, Repr

/-- Embeds `columnExists` (modelgen.go): whether a column with the given name is
already in the list. -/
def columnExists (columns : List ColumnInfo) (columnName : Str) : Bool :=
  columns.any fun col => decide (col.Name = columnName)

/-- Embeds `isPrimaryKey` (modelgen.go): whether the column name is in the list of
primary keys extracted from table-level constraints. -/
def isPrimaryKey (columnName : Str) (primaryKeys : List Str) : Bool :=
  primaryKeys.any fun pk => decide (pk = columnName)

/-- The struct-tag string `db:"<name>" json:"<name>"` built with
`fmt.Sprintf` in modelgen.go. -/
def tagsFor (colName : Str) : Str :=
  str "db:\"" ++ colName ++ str "\" json:\"" ++ colName ++ str "\""

/-! ## Statement splitter (`splitStatements`, modelgen.go) -/

/-- The per-line comment-stripping loop of `splitStatements`: walks the line
with flags `inMultiLineComment` / `inSingleLineComment`, dropping comment
text, and returns the processed characters together with the multi-line
comment state at end of line (the single-line flag is reset per line by the
caller, exactly as in the Go code). -/
def stripChars : Bool → Bool → Str → Str × Bool
  | inMulti, _, [] => ([], inMulti)
  | true, _, [_] => ([], true)
  | true, inSingle, c :: c2 :: rest2 =>
    if c = '*' ∧ c2 = '/' then stripChars false inSingle rest2
    else stripChars true inSingle (c2 :: rest2)
  | false, true, _ :: _ => ([], false)
  | false, false, [c] => ([c], false)
  | false, false, c :: c2 :: rest2 =>
    if c = '-' ∧ c2 = '-' then stripChars false true (c2 :: rest2)
    else if c = '/' ∧ c2 = '*' then stripChars true false rest2
    else
      let out := stripChars false false (c2 :: rest2)
      (c :: out.1, out.2)

/-- Embeds the `bufio.Scanner` line reading: split on `\n` and drop one trailing `\r`
per line. -/
def dropTrailingCR (line : Str) : Str :=
  match line.getLast? with
  | some c => if c = '\x0d' then line.dropLast else line
  | none => line

/-- The lines fed to the `splitStatements` line loop. -/
def getLines (content : Str) : List Str :=
  (splitOnChar '\n' content).map dropTrailingCR

/-- The line loop of `splitStatements`: accumulate non-comment line parts
into the current statement, closing the statement whenever the processed
line contains a semicolon; a trailing non-terminated fragment is emitted as
a final statement if non-empty. -/
def splitStatementsLoop : List Str → List Str → Str → Bool → List Str
  | [], statements, currentStmt, _ =>
    let lastStmt := trimSpace currentStmt
    if lastStmt = [] then statements else statements ++ [lastStmt]
  | line :: rest, statements, currentStmt, inMulti =>
    let processed := stripChars inMulti false line
    if trimSpace processed.1 = [] then
      splitStatementsLoop rest statements currentStmt processed.2
    else
      let currentStmt' := currentStmt ++ processed.1 ++ ['\n']
      if processed.1.contains ';' then
        splitStatementsLoop rest (statements ++ [trimSpace currentStmt']) [] processed.2
      else
        splitStatementsLoop rest statements currentStmt' processed.2

/-- Embeds `splitStatements` (modelgen.go): split SQL content into statements,
handling comments. -/
def splitStatements (content : Str) : List Str :=
  splitStatementsLoop (getLines content) [] [] false

/-! ## Regular-expression matchers

Each Go regex used by the classifier is embedded as a hand-rolled matcher
with the same leftmost-first semantics: `findFirst` scans candidate start
positions left to right; at one position, the pattern pieces are matched in
sequence, with optional groups such as `(?:IF\s+NOT\s+EXISTS\s+)?` tried
greedily first and dropped on failure (`<|>`). -/

/-- Match a literal case-insensitively (`(?i)` patterns); returns the rest. -/
def dropLitCI : Str → Str → Option Str
  | [], s => some s
  | _, [] => none
  | p :: ps, c :: cs => if p.toLower = c.toLower then dropLitCI ps cs else none

/-- Matches `\s+` (Go regexp space class): at least one space, consumed greedily. -/
def wsPlus : Str → Option Str
  | c :: rest => if regexSpace c then some (rest.dropWhile regexSpace) else none
  | [] => none

/-- Matches `\s*`: any spaces, consumed greedily. -/
def wsStar (s : Str) : Str := s.dropWhile regexSpace

/-- A nonempty greedy character-class match `[...]+`; returns capture and rest. -/
def takeClassPlus (p : Char → Bool) (s : Str) : Option (Str × Str) :=
  let cap := s.takeWhile p
  if cap = [] then none else some (cap, s.drop cap.length)

/-- Scan start positions left to right, as Go `FindStringSubmatch` does. -/
def findFirst {α : Type} (p : Str → Option α) : Str → Option α
  | [] => p []
  | c :: rest =>
    match p (c :: rest) with
    | some r => some r
    | none => findFirst p rest

/-- The tail `([^\s(]+)\s*\(([^;]+)` of `createTableRegex`, matched after
`CREATE\s+TABLE\s+` and the optional `IF NOT EXISTS`. -/
def createTail (s : Str) : Option (Str × Str) := do
  let (name, s) ← takeClassPlus (fun c => ¬ regexSpace c ∧ c ≠ '(') s
  let s := wsStar s
  match s with
  | '(' :: s => do
    let (body, _) ← takeClassPlus (fun c => c ≠ ';') s
    pure (name, body)
  | _ => none

/-- Matches the `(?:IF\s+NOT\s+EXISTS\s+)?` group of `createTableRegex`. -/
def ifNotExistsGroup (s : Str) : Option Str := do
  let s ← dropLitCI (str "IF") s
  let s ← wsPlus s
  let s ← dropLitCI (str "NOT") s
  let s ← wsPlus s
  let s ← dropLitCI (str "EXISTS") s
  wsPlus s

/-- Matches `createTableRegex` at one start position:
`(?i)CREATE\s+TABLE\s+(?:IF\s+NOT\s+EXISTS\s+)?([^\s(]+)\s*\(([^;]+)`. -/
def createTableAt (s : Str) : Option (Str × Str) := do
  let s ← dropLitCI (str "CREATE") s
  let s ← wsPlus s
  let s ← dropLitCI (str "TABLE") s
  let s ← wsPlus s
  (ifNotExistsGroup s >>= createTail) <|> createTail s

/-- Embeds `createTableRegex.FindStringSubmatch`: captures (table name, columns body). -/
def findCreateTable (s : Str) : Option (Str × Str) := findFirst createTableAt s

/-- Matches the `(?:IF\s+EXISTS\s+)?` group of the three ALTER regexes. -/
def ifExistsGroup (s : Str) : Option Str := do
  let s ← dropLitCI (str "IF") s
  let s ← wsPlus s
  let s ← dropLitCI (str "EXISTS") s
  wsPlus s

/-- Matches the `\s+([^;]+)` tail capture shared by the ALTER regexes. -/
def captureRest (s : Str) : Option Str := do
  let s ← wsPlus s
  let (cap, _) ← takeClassPlus (fun c => c ≠ ';') s
  pure cap

/-- Matches the `(?:\s+COLUMN)?` group. -/
def columnKwGroup (s : Str) : Option Str := do
  let s ← wsPlus s
  dropLitCI (str "COLUMN") s

/-- Matches the `(?:\s+IF\s+NOT\s+EXISTS)?` group of `alterTableAddRegex`. -/
def ifNotExistsKwGroup (s : Str) : Option Str := do
  let s ← wsPlus s
  let s ← dropLitCI (str "IF") s
  let s ← wsPlus s
  let s ← dropLitCI (str "NOT") s
  let s ← wsPlus s
  dropLitCI (str "EXISTS") s

/-- Matches the `(?:\s+IF\s+EXISTS)?` group of `alterTableDropRegex`. -/
def ifExistsKwGroup (s : Str) : Option Str := do
  let s ← wsPlus s
  let s ← dropLitCI (str "IF") s
  let s ← wsPlus s
  dropLitCI (str "EXISTS") s

/-- Common prefix `ALTER\s+TABLE\s+(?:IF\s+EXISTS\s+)?([^\s]+)` of the three
ALTER regexes; returns (table-name capture, rest). -/
def alterTableHead (s : Str) : Option (Str × Str) := do
  let s ← dropLitCI (str "ALTER") s
  let s ← wsPlus s
  let s ← dropLitCI (str "TABLE") s
  let s ← wsPlus s
  let step (s' : Str) : Option (Str × Str) :=
    takeClassPlus (fun c => ¬ regexSpace c) s'
  (ifExistsGroup s >>= step) <|> step s

/-- Matches `alterTableAddRegex` at one start position:
`(?i)ALTER\s+TABLE\s+(?:IF\s+EXISTS\s+)?([^\s]+)\s+ADD(?:\s+COLUMN)?(?:\s+IF\s+NOT\s+EXISTS)?\s+([^;]+)`. -/
def alterAddAt (s : Str) : Option (Str × Str) := do
  let (name, s) ← alterTableHead s
  let s ← wsPlus s
  let s ← dropLitCI (str "ADD") s
  let tail : Option Str :=
    (do captureRest (← ifNotExistsKwGroup (← columnKwGroup s))) <|>
    (do captureRest (← columnKwGroup s)) <|>
    (do captureRest (← ifNotExistsKwGroup s)) <|>
    captureRest s
  let cap ← tail
  pure (name, cap)

/-- Matches `alterTableAlterRegex` at one start position:
`(?i)ALTER\s+TABLE\s+(?:IF\s+EXISTS\s+)?([^\s]+)\s+ALTER(?:\s+COLUMN)?\s+([^;]+)`. -/
def alterAlterAt (s : Str) : Option (Str × Str) := do
  let (name, s) ← alterTableHead s
  let s ← wsPlus s
  let s ← dropLitCI (str "ALTER") s
  let tail : Option Str :=
    (do captureRest (← columnKwGroup s)) <|> captureRest s
  let cap ← tail
  pure (name, cap)

/-- Matches `alterTableDropRegex` at one start position:
`(?i)ALTER\s+TABLE\s+(?:IF\s+EXISTS\s+)?([^\s]+)\s+DROP(?:\s+COLUMN)?(?:\s+IF\s+EXISTS)?\s+([^;]+)`. -/
def alterDropAt (s : Str) : Option (Str × Str) := do
  let (name, s) ← alterTableHead s
  let s ← wsPlus s
  let s ← dropLitCI (str "DROP") s
  let tail : Option Str :=
    (do captureRest (← ifExistsKwGroup (← columnKwGroup s))) <|>
    (do captureRest (← columnKwGroup s)) <|>
    (do captureRest (← ifExistsKwGroup s)) <|>
    captureRest s
  let cap ← tail
  pure (name, cap)

/-- Embeds `alterTableAddRegex.FindStringSubmatch`. -/
def findAlterAdd (s : Str) : Option (Str × Str) := findFirst alterAddAt s

/-- Embeds `alterTableAlterRegex.FindStringSubmatch`. -/
def findAlterAlter (s : Str) : Option (Str × Str) := findFirst alterAlterAt s

/-- Embeds `alterTableDropRegex.FindStringSubmatch`. -/
def findAlterDrop (s : Str) : Option (Str × Str) := findFirst alterDropAt s

/-- Matches `primaryKeyRegex` at one start position:
`(?i)PRIMARY\s+KEY\s*\(([^)]+)\)`. -/
def primaryKeyAt (s : Str) : Option Str := do
  let s ← dropLitCI (str "PRIMARY") s
  let s ← wsPlus s
  let s ← dropLitCI (str "KEY") s
  let s := wsStar s
  match s with
  | '(' :: s => do
    let (cap, rest) ← takeClassPlus (fun c => c ≠ ')') s
    match rest with
    | ')' :: _ => pure cap
    | _ => none
  | _ => none

/-- Embeds `primaryKeyRegex.FindStringSubmatch`: the captured key-column list. -/
def findPrimaryKeyList (s : Str) : Option Str := findFirst primaryKeyAt s

/-! ## Column list extractor (`extractColumnDefinitions`, modelgen.go) -/

/-- The comma-splitting loop of `extractColumnDefinitions`: split on commas
at parenthesis depth zero (`(` increments, `)` decrements the running
counter), trimming each part and dropping empty parts. -/
def splitCommasAux : Str → Int → Str → List Str
  | [], _, currentPart =>
    let part := trimSpace currentPart.reverse
    if part = [] then [] else [part]
  | c :: rest, parenCount, currentPart =>
    let parenCount' : Int :=
      if c = '(' then parenCount + 1
      else if c = ')' then parenCount - 1
      else parenCount
    if c = ',' ∧ parenCount' = 0 then
      let part := trimSpace currentPart.reverse
      if part = [] then splitCommasAux rest parenCount' []
      else part :: splitCommasAux rest parenCount' []
    else
      splitCommasAux rest parenCount' (c :: currentPart)

/-- The per-`i` scan of the remaining words of a column definition, looking
for `NOT NULL` and an inline `PRIMARY KEY` (modelgen.go, the
`for i := 2; i < len(words)` loop); returns (IsNullable, IsPrimaryKey). -/
def scanColumnModifiers : List Str → Bool → Bool → Bool × Bool
  | [], isNullable, isPK => (isNullable, isPK)
  | w :: rest, isNullable, isPK =>
    match rest with
    | [] => (isNullable, isPK)
    | next :: _ =>
      let token := w.map Char.toUpper
      let nextU := next.map Char.toUpper
      let isNullable := if token = str "NOT" ∧ nextU = str "NULL" then false else isNullable
      let (isNullable, isPK) :=
        if token = str "PRIMARY" ∧ nextU = str "KEY" then (false, true) else (isNullable, isPK)
      scanColumnModifiers rest isNullable isPK

/-- Processing of one comma-separated fragment in `extractColumnDefinitions`:
skip table-level constraint fragments, require at least two words, build the
`ColumnInfo` with the cleaned name, the first type token with any
parenthesized parameters stripped and lower-cased, `IsNullable` defaulting
to `true`, and the `NOT NULL` / inline `PRIMARY KEY` modifiers applied. -/
def columnFromFragment (part : Str) : Option ColumnInfo :=
  let part := trimSpace part
  if part = [] then none
  else
    let upperPart := part.map Char.toUpper
    if (str "CONSTRAINT").isPrefixOf upperPart ∨ (str "PRIMARY KEY").isPrefixOf upperPart ∨
        (str "FOREIGN KEY").isPrefixOf upperPart ∨ (str "UNIQUE").isPrefixOf upperPart ∨
        (str "CHECK").isPrefixOf upperPart then none
    else
      let words := fields part
      if words.length < 2 then none
      else
        let colName := cleanIdentifier (words.getD 0 [])
        let colType0 := words.getD 1 []
        let colType := if colType0.contains '(' then colType0.takeWhile (fun c => c ≠ '(') else colType0
        let mods := scanColumnModifiers (words.drop 2) true false
        some { Name := colName, «Type» := colType.map Char.toLower,
               IsNullable := mods.1, IsPrimaryKey := mods.2 }

/-- Embeds `extractColumnDefinitions` (modelgen.go). -/
def extractColumnDefinitions (columnsDef : Str) : List ColumnInfo :=
  (splitCommasAux columnsDef 0 []).filterMap columnFromFragment

/-- Embeds `extractPrimaryKeysFromConstraints` (modelgen.go): key column names of a
table-level `PRIMARY KEY (...)` constraint, split on commas, trimmed and
cleaned. -/
def extractPrimaryKeysFromConstraints (columnsDef : Str) : List Str :=
  match findPrimaryKeyList columnsDef with
  | some keyList => (splitOnChar ',' keyList).map fun col => cleanIdentifier (trimSpace col)
  | none => []

/-! ## External library shims

`strcase.ToCamel` and `pluralize.Singular` come from third-party modules
(`iancoleman/strcase`, `gertd/go-pluralize`), not from this repository; they
only produce the Go-side identifier names and never feed back into the schema
accumulation, and no claim depends on their exact values.  They are modelled
by simple functions with the behaviour the generator relies on. -/

/-- Capitalize the first character of a word. -/
def capitalizeWord : Str → Str
  | [] => []
  | c :: rest => c.toUpper :: rest

/-- Models the external `strcase.ToCamel`: `snake_case` to `CamelCase`. -/
def toCamel (s : Str) : Str :=
  ((splitOnChar '_' s).map capitalizeWord).foldl (· ++ ·) []

/-- Models the external `pluralize.Singular` for the regular plural names the
generator meets: drop one trailing `s`. -/
def pluralSingular (s : Str) : Str :=
  match s.getLast? with
  | some c => if c = 's' then s.dropLast else s
  | none => s

/-! ## Schema accumulator (`processMigrationContent`, modelgen.go)

The Go `map[string]TableInfo` is modelled as an association list with
Go-map update semantics (replace the binding if the key is present,
otherwise add it); the claims are insensitive to iteration order. -/

/-- The schema store: table name to accumulated table schema. -/
abbrev Store := List (Str × TableInfo)

/-- Embeds the Go map read `tables[tableName]`. -/
def lookupStore : Store → Str → Option TableInfo
  | [], _ => none
  | (k, v) :: rest, key => if k = key then some v else lookupStore rest key

/-- Embeds the Go map write `tables[tableName] = table`. -/
def insertStore : Store → Str → TableInfo → Store
  | [], key, v => [(key, v)]
  | (k, v0) :: rest, key, v =>
    if k = key then (key, v) :: rest else (k, v0) :: insertStore rest key v

/-- The body of the CREATE TABLE column loop (modelgen.go lines 478-505) for
one extracted column: re-clean the name, skip fragments whose (upper-cased)
name starts with a constraint keyword, overwrite the primary-key flag from
the table-level constraint list, force nullability to `false` for a
primary-key column, and fill the Go name, Go type and tags. -/
def createProcessColumn (primaryKeys : List Str) (col : ColumnInfo) : Option ColumnInfo :=
  let colName := cleanIdentifier col.Name
  let upperName := colName.map Char.toUpper
  if (str "CONSTRAINT").isPrefixOf upperName ∨ (str "PRIMARY").isPrefixOf upperName ∨
      (str "FOREIGN").isPrefixOf upperName ∨ (str "UNIQUE").isPrefixOf upperName ∨
      (str "CHECK").isPrefixOf upperName then none
  else
    let isPK := isPrimaryKey colName primaryKeys
    let isNullable := if isPK then false else col.IsNullable
    some { col with
      IsPrimaryKey := isPK
      IsNullable := isNullable
      GoName := toCamel colName
      GoType := mapPostgreSQLTypeToGo col.«Type» isNullable
      Tags := tagsFor colName }

/-- The column list a CREATE TABLE statement produces: every non-constraint
fragment of the body, processed by `createProcessColumn` against the
table-level primary keys of the same body. -/
def createTableColumns (columnsDef : Str) : List ColumnInfo :=
  (extractColumnDefinitions columnsDef).filterMap
    (createProcessColumn (extractPrimaryKeysFromConstraints columnsDef))

/-- The CREATE TABLE branch of `processMigrationContent`: build a fresh
`TableInfo` from the statement body and store it under the cleaned name. -/
def applyCreate (tables : Store) (rawName columnsDef : Str) : Store :=
  insertStore tables (cleanIdentifier rawName)
    ⟨cleanIdentifier rawName, createTableColumns columnsDef⟩

/-- Finalisation of an added column in the ALTER ADD branch: fill Go name,
Go type (from the extracted type and nullability) and tags.  The stored
`Name` stays as extracted, exactly as in the Go code. -/
def addProcessColumn (col : ColumnInfo) : ColumnInfo :=
  let colName := cleanIdentifier col.Name
  { col with
    GoName := toCamel colName
    GoType := mapPostgreSQLTypeToGo col.«Type» col.IsNullable
    Tags := tagsFor colName }

/-- The column loop of the ALTER ADD branch: append each extracted column to
the evolving list, skipping any whose cleaned name already exists. -/
def addColumnsLoop (columns : List ColumnInfo) : List ColumnInfo → List ColumnInfo
  | [] => columns
  | col :: rest =>
    let colName := cleanIdentifier col.Name
    if columnExists columns colName then addColumnsLoop columns rest
    else addColumnsLoop (columns ++ [addProcessColumn col]) rest

/-- The ALTER TABLE ADD COLUMN branch of `processMigrationContent`; a table
not yet present is silently skipped.  The Go code appends a comma to the
column clause before extraction. -/
def applyAdd (tables : Store) (rawName columnDef : Str) : Store :=
  let tableName := cleanIdentifier rawName
  match lookupStore tables tableName with
  | none => tables
  | some table =>
    let newColumns := addColumnsLoop table.Columns (extractColumnDefinitions (columnDef ++ [',']))
    insertStore tables tableName { table with Columns := newColumns }

/-- The per-column actions of the ALTER COLUMN branch: `TYPE <newtype>`
(parameters stripped, raw type stored as written, Go type recomputed),
`SET NOT NULL` and `DROP NOT NULL` (nullability forced, Go type
recomputed). -/
def alterColumnUpdate (parts : List Str) (action : Str) (c : ColumnInfo) : ColumnInfo :=
  let c :=
    if action = str "TYPE" ∧ 2 < parts.length then
      let newType0 := parts.getD 2 []
      let newType := if newType0.contains '(' then newType0.takeWhile (fun ch => ch ≠ '(') else newType0
      { c with «Type» := newType, GoType := mapPostgreSQLTypeToGo newType c.IsNullable }
    else c
  let c :=
    if action = str "SET" ∧ 2 < parts.length ∧ (parts.getD 2 []).map Char.toUpper = str "NOT" ∧
        3 < parts.length ∧ (parts.getD 3 []).map Char.toUpper = str "NULL" then
      { c with IsNullable := false, GoType := mapPostgreSQLTypeToGo c.«Type» false }
    else c
  let c :=
    if action = str "DROP" ∧ 2 < parts.length ∧ (parts.getD 2 []).map Char.toUpper = str "NOT" ∧
        3 < parts.length ∧ (parts.getD 3 []).map Char.toUpper = str "NULL" then
      { c with IsNullable := true, GoType := mapPostgreSQLTypeToGo c.«Type» true }
    else c
  c

/-- Update the first column with the given name (the Go loop mutates the
first match and breaks). -/
def updateFirstColumn (colName : Str) (f : ColumnInfo → ColumnInfo) :
    List ColumnInfo → List ColumnInfo
  | [] => []
  | c :: rest =>
    if c.Name = colName then f c :: rest
    else c :: updateFirstColumn colName f rest

/-- The ALTER TABLE ALTER COLUMN branch of `processMigrationContent`; a
table not yet present, a clause of fewer than two words, or an unknown
column leave the store unchanged. -/
def applyAlter (tables : Store) (rawName alterDef : Str) : Store :=
  let tableName := cleanIdentifier rawName
  match lookupStore tables tableName with
  | none => tables
  | some table =>
    let parts := fields alterDef
    if parts.length < 2 then tables
    else
      let colName := cleanIdentifier (parts.getD 0 [])
      let action := (parts.getD 1 []).map Char.toUpper
      if columnExists table.Columns colName then
        insertStore tables tableName
          { table with Columns := updateFirstColumn colName (alterColumnUpdate parts action) table.Columns }
      else tables

/-- The ALTER TABLE DROP COLUMN branch of `processMigrationContent`: remove
every column with the cleaned name; a table not yet present is skipped. -/
def applyDrop (tables : Store) (rawName colRaw : Str) : Store :=
  let tableName := cleanIdentifier rawName
  let colName := cleanIdentifier colRaw
  match lookupStore tables tableName with
  | none => tables
  | some table =>
    insertStore tables tableName
      { table with Columns := table.Columns.filter fun col => decide (col.Name ≠ colName) }

/-- One iteration of the statement loop of `processMigrationContent`: trim
the statement, skip it if empty, then try the four regexes in order
(CREATE TABLE, ALTER ADD, ALTER ALTER, ALTER DROP); an unrecognized
statement leaves the store unchanged. -/
def processStatement (tables : Store) (stmt0 : Str) : Store :=
  if trimSpace stmt0 = [] then tables
  else
    match findCreateTable (trimSpace stmt0) with
    | some m => applyCreate tables m.1 m.2
    | none =>
      match findAlterAdd (trimSpace stmt0) with
      | some m => applyAdd tables m.1 m.2
      | none =>
        match findAlterAlter (trimSpace stmt0) with
        | some m => applyAlter tables m.1 m.2
        | none =>
          match findAlterDrop (trimSpace stmt0) with
          | some m => applyDrop tables m.1 m.2
          | none => tables

/-- Embeds `processMigrationContent` (modelgen.go): split the content into
statements and fold them over the schema store. -/
def processMigrationContent (content : Str) (tables : Store) : Store :=
  (splitStatements content).foldl processStatement tables

/-! ## Model emitter (`generateModelFromTableInfo` and `ModelTemplate`)

The emitted bytes are the expansion of the `modelTemplateSource` Go
`text/template` on the data map built in `generateModelFromTableInfo`
(struct name, receiver, columns, the derived `HasTime` / `HasJSON` flags and
the run timestamp `time.Now().Format(time.RFC3339)`), before `go/format`.
The template's whitespace-trim markers (`{{-` and `-}}`) are applied to the
literal text exactly once, as `text/template` does, giving the concatenation
below; the timestamp is substituted at exactly one place, in the
`// Generated on` header comment.  `format.Source` (gofmt) is a
deterministic pure function of these bytes that preserves comment text, so
it is left abstract. -/

/-- Embeds `strings.Contains` for a non-trivial substring: the needle is a
prefix of some suffix. -/
def containsSub (needle : Str) : Str → Bool
  | [] => needle.isPrefixOf []
  | c :: rest => needle.isPrefixOf (c :: rest) || containsSub needle rest

/-- Derived flag `hasTime` (modelgen.go lines 201-212):
`strings.Contains(col.GoType, "time.Time")` over the final columns. -/
def computeHasTime (columns : List ColumnInfo) : Bool :=
  columns.any fun col => containsSub (str "time.Time") col.GoType

/-- Derived flag `hasNullable`: `strings.HasPrefix(col.GoType, "*")` over the
final columns (computed by the Go code; not consumed by the template). -/
def computeHasNullable (columns : List ColumnInfo) : Bool :=
  columns.any fun col => (str "*").isPrefixOf col.GoType

/-- Derived flag `hasJSON`: `col.GoType == "json.RawMessage"` over the final
columns. -/
def computeHasJSON (columns : List ColumnInfo) : Bool :=
  columns.any fun col => decide (col.GoType = str "json.RawMessage")

/-- One iteration of the `{{ range .Columns -}}` body of the template:
Go name, Go type and the backquoted db/json tag, followed by a newline. -/
def renderColumnLine (c : ColumnInfo) : Str :=
  c.GoName ++ str " " ++ c.GoType ++ str " \x60db:\"" ++ c.Name ++
    str "\" json:\"" ++ c.Name ++ str "\"\x60\n"

/-- The `{{ if or $hasTime $hasJSON -}} import (...) {{- end }}` block of the
template (empty when neither flag is set). -/
def renderImports (hasTime hasJSON : Bool) : Str :=
  if hasTime ∨ hasJSON then
    str "import (\n\t" ++ (if hasTime then str "\"time\"" else []) ++
    str "\n\t" ++ (if hasJSON then str "\"encoding/json\"" else []) ++ str "\n)"
  else []

/-- Everything the template emits after the timestamp substitution: package
clause, conditional import block, struct definition with one line per
column, and the `TableName` method.  Independent of the timestamp. -/
def renderModelRest (info : TableInfo) : Str :=
  let structName := toCamel (pluralSingular info.TableName)
  let receiver : Str := [(structName.headD 'x').toLower]
  let hasTime := computeHasTime info.Columns
  let hasJSON := computeHasJSON info.Columns
  str "\n\npackage models\n\n" ++ renderImports hasTime hasJSON ++
  str "\n\n\n// " ++ structName ++ str " model represents the " ++ info.TableName ++
  str " table\ntype " ++ structName ++ str " struct \x7b\n" ++
  (info.Columns.map renderColumnLine).foldl (· ++ ·) [] ++
  str "\x7d\n\n// TableName returns the table name for " ++ structName ++
  str "\nfunc (" ++ receiver ++ str " *" ++ structName ++
  str ") TableName() string \x7b\n\treturn \"" ++ info.TableName ++ str "\"\n\x7d\n"

/-- The bytes emitted for one table by `generateModelFromTableInfo` (before
gofmt): the fixed header, the `{{ .Timestamp }}` substitution — the value of
`time.Now().Format(time.RFC3339)` at generation time — and the
timestamp-independent remainder. -/
def renderModel (info : TableInfo) (timestamp : Str) : Str :=
  str "// This file is auto-generated. DO NOT EDIT.\n// Generated on " ++
    timestamp ++ renderModelRest info

/-- The output file name for one table:
`filepath.Join(outputDir, tableInfo.TableName+".go")`. -/
def outputFileName (info : TableInfo) : Str := info.TableName ++ str ".go"

/-- The table names emitted in migration mode (`main`, modelgen.go lines
128-135): every accumulated table except `schema_migrations`. -/
def emittedTableNames (tables : Store) : List Str :=
  (tables.map Prod.fst).filter fun name => decide (name ≠ str "schema_migrations")

/-- The table names emitted in live-catalog mode (`main`, modelgen.go lines
166-171): every table returned by `getTables` except `schema_migrations`. -/
def emittedDbTableNames (dbTables : List Str) : List Str :=
  dbTables.filter fun name => decide (name ≠ str "schema_migrations")

/-- Bool-valued guard used to state claims about ALTER statements whose
target table is absent: if the matcher produced a (table, clause) capture,
the cleaned table name has no binding in the store. -/
def alterTargetAbsent (tables : Store) (m : Option (Str × Str)) : Bool :=
  match m with
  | some tc => (lookupStore tables (cleanIdentifier tc.1)).isNone
  | none => true

/-! ## Supporting lemmas -/

/-- Writing a key and reading it back yields the written table. -/
theorem lookupStore_insertStore (tables : Store) (k : Str) (v : TableInfo) :
    lookupStore (insertStore tables k v) k = some v := by
  induction tables with
  | nil => simp [insertStore, lookupStore]
  | cons p rest ih =>
    obtain ⟨k0, v0⟩ := p
    by_cases h : k0 = k
    · simp [insertStore, lookupStore, h]
    · simp [insertStore, lookupStore, h, ih]

/-- The CREATE TABLE matcher finds nothing in the empty string. -/
theorem findCreateTable_nil : findCreateTable [] = none := rfl

/-- Splitting on a character that does not occur returns the whole string. -/
theorem splitOnChar_of_not_mem {sep : Char} {s : Str} (h : sep ∉ s) :
    splitOnChar sep s = [s] := by
  induction s with
  | nil => rfl
  | cons c rest ih =>
    have hc : ¬ c = sep := fun he => h (he ▸ List.mem_cons_self c rest)
    have hr : sep ∉ rest := fun hm => h (List.mem_cons_of_mem c hm)
    simp [splitOnChar, ih hr, hc]

/-- Trailing whitespace (here: the newline appended per line) does not
change the trimmed string. -/
theorem trimSpace_append_space {xs : Str} {c : Char} (h : goSpace c = true) :
    trimSpace (xs ++ [c]) = trimSpace xs := by
  have : trimRightSpaces (xs ++ [c]) = trimRightSpaces xs := by
    simp [trimRightSpaces, List.dropWhile_cons, h]
  simp [trimSpace, this]

/-- Trimming the empty string gives the empty string. -/
theorem trimSpace_nil : trimSpace ([] : Str) = [] := rfl

/-- Finalising an added column does not change its stored name. -/
theorem addProcessColumn_Name (c : ColumnInfo) : (addProcessColumn c).Name = c.Name := rfl

/-- Characterisation of `columnExists` as a membership of names. -/
theorem columnExists_iff (columns : List ColumnInfo) (n : Str) :
    columnExists columns n = true ↔ n ∈ columns.map ColumnInfo.Name := by
  simp only [columnExists, List.any_eq_true, decide_eq_true_eq, List.mem_map]

/-- In a duplicate-free list, a member is counted exactly once. -/
theorem count_name_eq_one {l : List Str} {a : Str} (hnd : l.Nodup) (hmem : a ∈ l) :
    l.count a = 1 := by
  induction l with
  | nil => cases hmem
  | cons x l ih =>
    rcases List.mem_cons.mp hmem with rfl | hmem'
    · rw [List.count_cons_self, List.count_eq_zero.mpr (List.nodup_cons.mp hnd).1]
    · have hne : x ≠ a := fun he => (List.nodup_cons.mp hnd).1 (he ▸ hmem')
      rw [List.count_cons_of_ne (Ne.symm hne)]
      exact ih (List.nodup_cons.mp hnd).2 hmem'

/-! ## Claims -/

/-- C8: processing an ALTER statement (ADD COLUMN, ALTER COLUMN or DROP
COLUMN — and not matching CREATE TABLE) whose target table has no binding in
the schema store leaves the entire store unchanged; the Go branch has no
error path, so no error is raised. -/
theorem c8_alter_missing_table_noop (tables : Store) (stmt : Str)
    (hc : findCreateTable (trimSpace stmt) = none)
    (ha : alterTargetAbsent tables (findAlterAdd (trimSpace stmt)) = true)
    (hl : alterTargetAbsent tables (findAlterAlter (trimSpace stmt)) = true)
    (hd : alterTargetAbsent tables (findAlterDrop (trimSpace stmt)) = true) :
    processStatement tables stmt = tables := by
  unfold processStatement
  by_cases h0 : trimSpace stmt = []
  · rw [if_pos h0]
  · rw [if_neg h0, hc]
    cases hadd : findAlterAdd (trimSpace stmt) with
    | some m =>
      rw [hadd] at ha
      simp only [alterTargetAbsent, Option.isNone_iff_eq_none] at ha
      simp only [applyAdd, ha]
    | none =>
      cases halter : findAlterAlter (trimSpace stmt) with
      | some m =>
        rw [halter] at hl
        simp only [alterTargetAbsent, Option.isNone_iff_eq_none] at hl
        simp only [applyAlter, hl]
      | none =>
        cases hdrop : findAlterDrop (trimSpace stmt) with
        | some m =>
          rw [hdrop] at hd
          simp only [alterTargetAbsent, Option.isNone_iff_eq_none] at hd
          simp only [applyDrop, hd]
        | none => rfl

/-- C8 witness: a concrete ALTER ADD statement against a store that does not
contain its table leaves the (non-empty) store unchanged. -/
theorem c8_alter_missing_table_noop_witness :
    processStatement [(str "users", ⟨str "users", []⟩)]
      (str "ALTER TABLE ghosts ADD COLUMN x INT;") = [(str "users", ⟨str "users", []⟩)] :=
  c8_alter_missing_table_noop
    [(str "users", ⟨str "users", []⟩)] (str "ALTER TABLE ghosts ADD COLUMN x INT;")
    (by decide) (by decide) (by decide) (by decide)

/-- C10: a CREATE TABLE statement stores, under the cleaned table name, a
schema built fresh from the statement's own column body — the resulting
binding is independent of whatever was accumulated for that table before,
so a second CREATE TABLE for an already-defined table discards all earlier
columns and ALTER-applied changes. -/
theorem c10_create_replaces_schema (tables : Store) (stmt raw body : Str)
    (h : findCreateTable (trimSpace stmt) = some (raw, body)) :
    lookupStore (processStatement tables stmt) (cleanIdentifier raw) =
      some ⟨cleanIdentifier raw, createTableColumns body⟩ ∧
    ∀ tables' : Store,
      lookupStore (processStatement tables' stmt) (cleanIdentifier raw) =
        lookupStore (processStatement tables stmt) (cleanIdentifier raw) := by
  have h0 : trimSpace stmt ≠ [] := by
    intro h0
    rw [h0, findCreateTable_nil] at h
    exact Option.noConfusion h
  have key : ∀ ts : Store, processStatement ts stmt =
      applyCreate ts raw body := by
    intro ts
    unfold processStatement
    rw [if_neg h0, h]
  have happ : ∀ ts : Store,
      lookupStore (applyCreate ts raw body) (cleanIdentifier raw) =
        some ⟨cleanIdentifier raw, createTableColumns body⟩ := fun ts =>
    lookupStore_insertStore ts (cleanIdentifier raw) _
  constructor
  · rw [key tables]
    exact happ tables
  · intro tables'
    rw [key tables, key tables', happ tables, happ tables']

/-- C9: in both generation modes, the table named `schema_migrations` is
never emitted, and any other table of the accumulated store (respectively of
the catalog table list) is emitted exactly once. -/
theorem c9_schema_migrations_skipped (tables : Store) (dbTables : List Str) (name : Str) :
    (str "schema_migrations" ∉ emittedTableNames tables ∧
      str "schema_migrations" ∉ emittedDbTableNames dbTables) ∧
    ((tables.map Prod.fst).Nodup → name ∈ tables.map Prod.fst →
      name ≠ str "schema_migrations" → (emittedTableNames tables).count name = 1) ∧
    (dbTables.Nodup → name ∈ dbTables → name ≠ str "schema_migrations" →
      (emittedDbTableNames dbTables).count name = 1) := by
  refine ⟨⟨fun hmem => ?_, fun hmem => ?_⟩, fun hnd hmem hne => ?_, fun hnd hmem hne => ?_⟩
  · have := (List.mem_filter.mp hmem).2
    simp at this
  · have := (List.mem_filter.mp hmem).2
    simp at this
  · refine count_name_eq_one (List.Nodup.filter _ hnd)
      (List.mem_filter.mpr ⟨hmem, ?_⟩)
    exact decide_eq_true hne
  · refine count_name_eq_one (List.Nodup.filter _ hnd)
      (List.mem_filter.mpr ⟨hmem, ?_⟩)
    exact decide_eq_true hne

/-- C9 witness: with a store holding `users` and `schema_migrations` (and
the same two names coming back from the catalog), `schema_migrations` is not
emitted and `users` is emitted exactly once, in both modes. -/
theorem c9_schema_migrations_skipped_witness :
    (str "schema_migrations" ∉ emittedTableNames
        [(str "users", ⟨str "users", []⟩),
         (str "schema_migrations", ⟨str "schema_migrations", []⟩)] ∧
      str "schema_migrations" ∉ emittedDbTableNames [str "users", str "schema_migrations"]) ∧
    (emittedTableNames
        [(str "users", ⟨str "users", []⟩),
         (str "schema_migrations", ⟨str "schema_migrations", []⟩)]).count (str "users") = 1 ∧
    (emittedDbTableNames [str "users", str "schema_migrations"]).count (str "users") = 1 := by
  have h := c9_schema_migrations_skipped
    [(str "users", ⟨str "users", []⟩),
     (str "schema_migrations", ⟨str "schema_migrations", []⟩)]
    [str "users", str "schema_migrations"] (str "users")
  exact ⟨h.1, h.2.1 (by decide) (by decide) (by decide), h.2.2 (by decide) (by decide) (by decide)⟩

/-- C3 counterexample: the emitted bytes for one and the same table differ
between two runs whose `time.Now()` timestamps differ — the output is not a
function of the migration set alone, refuting byte-identical re-runs. -/
theorem c3_timestamp_counterexample :
    renderModel ⟨str "users", [⟨str "id", str "Id", str "serial", str "int",
        false, false, tagsFor (str "id")⟩]⟩ (str "2024-01-01T00:00:00Z") ≠
      renderModel ⟨str "users", [⟨str "id", str "Id", str "serial", str "int",
        false, false, tagsFor (str "id")⟩]⟩ (str "2024-01-01T00:00:01Z") := by decide

/-- C3 amended: for a fixed table schema the emitted bytes are byte-identical
between two runs exactly when the generation timestamps coincide; every byte
outside the timestamp substitution is a function of the schema alone. -/
theorem c3_output_identical_iff_same_timestamp (info : TableInfo) (t1 t2 : Str) :
    renderModel info t1 = renderModel info t2 ↔ t1 = t2 := by
  constructor
  · intro h
    unfold renderModel at h
    exact List.append_cancel_left (List.append_cancel_right h)
  · intro h
    rw [h]

/-- C1 counterexample: after `CREATE TABLE t (id INT, PRIMARY KEY (id));`
followed by `ALTER TABLE t ALTER COLUMN id DROP NOT NULL;`, the final
accumulated schema holds a column whose primary-key flag is set and whose
nullability is `true` — so the invariant does not survive ALTER statements. -/
theorem c1_pk_nullable_counterexample :
    (lookupStore (processMigrationContent
        (str "CREATE TABLE t (id INT, PRIMARY KEY (id));\nALTER TABLE t ALTER COLUMN id DROP NOT NULL;")
        []) (str "t")).map
      (fun t => t.Columns.map fun c => (c.IsPrimaryKey, c.IsNullable, c.GoType)) =
      some [(true, true, str "*int")] := by decide

/-- C1 amended: in the schema a CREATE TABLE statement itself produces,
every column whose primary-key flag is set has nullability `false`,
regardless of declared nullability; a later `ALTER ... DROP NOT NULL` can
still make such a column nullable. -/
theorem c1_create_pk_not_nullable (columnsDef : Str) (col : ColumnInfo)
    (hmem : col ∈ createTableColumns columnsDef)
    (hpk : col.IsPrimaryKey = true) : col.IsNullable = false := by
  rcases List.mem_filterMap.mp hmem with ⟨a, -, ha⟩
  simp only [createProcessColumn] at ha
  split at ha
  · exact Option.noConfusion ha
  · injection ha with ha
    subst ha
    by_cases hb : isPrimaryKey (cleanIdentifier a.Name)
        (extractPrimaryKeysFromConstraints columnsDef) = true
    · simp [hb]
    · simp [hb] at hpk

/-- C1 amended, witness: the table-level-constraint primary key `id` of
`CREATE TABLE t (id INT, PRIMARY KEY (id));` is in the created column list
with its primary-key flag set, and the theorem yields nullability `false`. -/
theorem c1_create_pk_not_nullable_witness :
    (⟨str "id", str "Id", str "int", str "int", false, true, tagsFor (str "id")⟩ : ColumnInfo) ∈
      createTableColumns (str "id INT, PRIMARY KEY (id))") ∧
    (⟨str "id", str "Id", str "int", str "int", false, true, tagsFor (str "id")⟩ :
      ColumnInfo).IsNullable = false :=
  ⟨by decide, c1_create_pk_not_nullable (str "id INT, PRIMARY KEY (id))") _ (by decide) (by decide)⟩

set_option maxRecDepth 400000

/-- C2: processing, in order, `CREATE TABLE users (id SERIAL PRIMARY KEY,
email VARCHAR(255) NOT NULL, bio TEXT);`, `ALTER TABLE users ADD COLUMN age
INT;`, `ALTER TABLE users ALTER COLUMN age SET NOT NULL;`, `ALTER TABLE
users DROP COLUMN bio;` yields a `users` schema whose columns are exactly
`[id, email, age]` in that order, with `age` a non-nullable integer
(`GoType = int`) and `id`, `email` byte-for-byte unchanged from their
post-CREATE state. -/
theorem c2_scenario_abcd :
    (lookupStore (processMigrationContent
        (str "CREATE TABLE users (id SERIAL PRIMARY KEY, email VARCHAR(255) NOT NULL, bio TEXT);\nALTER TABLE users ADD COLUMN age INT;\nALTER TABLE users ALTER COLUMN age SET NOT NULL;\nALTER TABLE users DROP COLUMN bio;")
        []) (str "users")).map (fun t => t.Columns.map ColumnInfo.Name) =
      some [str "id", str "email", str "age"] ∧
    (lookupStore (processMigrationContent
        (str "CREATE TABLE users (id SERIAL PRIMARY KEY, email VARCHAR(255) NOT NULL, bio TEXT);\nALTER TABLE users ADD COLUMN age INT;\nALTER TABLE users ALTER COLUMN age SET NOT NULL;\nALTER TABLE users DROP COLUMN bio;")
        []) (str "users")).map (fun t => t.Columns.map fun c => (c.IsNullable, c.GoType)) =
      some [(false, str "int"), (false, str "string"), (false, str "int")] ∧
    (lookupStore (processMigrationContent
        (str "CREATE TABLE users (id SERIAL PRIMARY KEY, email VARCHAR(255) NOT NULL, bio TEXT);\nALTER TABLE users ADD COLUMN age INT;\nALTER TABLE users ALTER COLUMN age SET NOT NULL;\nALTER TABLE users DROP COLUMN bio;")
        []) (str "users")).map (fun t => t.Columns.take 2) =
    (lookupStore (processMigrationContent
        (str "CREATE TABLE users (id SERIAL PRIMARY KEY, email VARCHAR(255) NOT NULL, bio TEXT);")
        []) (str "users")).map (fun t => t.Columns.take 2) := by
  refine ⟨by decide, by decide, by decide⟩

/-- C4 (evaluation at the failing input): processing `CREATE TABLE users
(id SERIAL PRIMARY KEY, email VARCHAR(255) NOT NULL, bio TEXT);` yields the
three columns in order with the claimed types and nullability — but the
primary-key flag of `id` is `false`: the inline `PRIMARY KEY` flag set by
`extractColumnDefinitions` is overwritten in `processMigrationContent` by
the lookup against the (here empty) table-level constraint list. -/
theorem c4_scenario_a_eval :
    (lookupStore (processMigrationContent
        (str "CREATE TABLE users (id SERIAL PRIMARY KEY, email VARCHAR(255) NOT NULL, bio TEXT);")
        []) (str "users")).map
      (fun t => t.Columns.map fun c => (c.Name, c.GoType, c.IsNullable, c.IsPrimaryKey)) =
      some [(str "id", str "int", false, false),
            (str "email", str "string", false, false),
            (str "bio", str "*string", true, false)] := by decide

/-- C5 counterexample: a single input line holding two complete semicolon-
terminated statements is emitted as ONE statement containing both — the
splitter does not start a new statement at the mid-line semicolon. -/
theorem c5_two_statements_one_line_counterexample :
    splitStatements (str "CREATE TABLE a (x INT); CREATE TABLE b (y INT);") =
      [str "CREATE TABLE a (x INT); CREATE TABLE b (y INT);"] := by decide

/-- C5 amended: the splitter closes the current statement at the end of each
line whose comment-stripped text contains a semicolon, keeping everything on
that line (including text after the semicolon) inside the same statement: a
nonblank single-line input always yields exactly one statement — the
comment-stripped, whitespace-trimmed line — no matter how many semicolons it
contains. -/
theorem c5_single_line_single_statement (content : Str)
    (hnl : '\n' ∉ content)
    (hcr : dropTrailingCR content = content)
    (hne : trimSpace (stripChars false false content).1 ≠ []) :
    splitStatements content = [trimSpace (stripChars false false content).1] := by
  have hnl' : trimSpace ((stripChars false false content).1 ++ ['\n']) =
      trimSpace (stripChars false false content).1 :=
    trimSpace_append_space (by decide)
  unfold splitStatements getLines
  rw [splitOnChar_of_not_mem hnl]
  simp only [List.map_cons, List.map_nil, hcr]
  simp only [splitStatementsLoop, List.nil_append]
  rw [if_neg hne]
  split
  · simp [hnl', trimSpace_nil]
  · simp [hnl', trimSpace_nil, hne]

/-- C5 amended, witness: a concrete nonblank single-line input with two
semicolons yields exactly one statement. -/
theorem c5_single_line_single_statement_witness :
    splitStatements (str "ALTER TABLE t ADD a INT; ALTER TABLE t DROP a;") =
      [trimSpace (stripChars false false
        (str "ALTER TABLE t ADD a INT; ALTER TABLE t DROP a;")).1] :=
  c5_single_line_single_statement (str "ALTER TABLE t ADD a INT; ALTER TABLE t DROP a;")
    (by decide) (by decide) (by decide)

/-- C6 counterexample: a CREATE TABLE body declaring the same column name
twice produces a schema with two columns of that name — the uniqueness
invariant fails at CREATE time. -/
theorem c6_duplicate_create_counterexample :
    (lookupStore (processMigrationContent (str "CREATE TABLE t (x INT, x TEXT);") [])
        (str "t")).map (fun t => t.Columns.map ColumnInfo.Name) =
      some [str "x", str "x"] := by decide

/-- C6 amended: the ALTER ADD COLUMN loop preserves pairwise-distinct column
names (a candidate whose cleaned name — for columns produced by
`extractColumnDefinitions`, equal to its stored name — is already present is
skipped), but CREATE TABLE bodies are not deduplicated. -/
theorem c6_add_columns_preserve_distinct_names (columns cands : List ColumnInfo)
    (hclean : ∀ c ∈ cands, cleanIdentifier c.Name = c.Name)
    (hnodup : (columns.map ColumnInfo.Name).Nodup) :
    ((addColumnsLoop columns cands).map ColumnInfo.Name).Nodup := by
  induction cands generalizing columns with
  | nil => exact hnodup
  | cons col rest ih =>
    have hcol : cleanIdentifier col.Name = col.Name := hclean col (List.mem_cons_self _ _)
    have hrest : ∀ c ∈ rest, cleanIdentifier c.Name = c.Name :=
      fun c hc => hclean c (List.mem_cons_of_mem _ hc)
    simp only [addColumnsLoop]
    by_cases hex : columnExists columns (cleanIdentifier col.Name) = true
    · rw [if_pos hex]
      exact ih _ hrest hnodup
    · rw [if_neg hex]
      refine ih _ hrest ?_
      have hnotin : col.Name ∉ columns.map ColumnInfo.Name := by
        rw [← hcol]
        exact fun hmem => hex ((columnExists_iff columns _).mpr hmem)
      rw [List.map_append]
      rw [List.map_singleton, addProcessColumn_Name]
      rw [← List.concat_eq_append]
      exact List.Nodup.concat hnotin hnodup

/-- C6 amended, witness: adding `[b, a]` to existing columns `[a]` (cleaned
names equal to stored names) keeps the names pairwise distinct — the
duplicate `a` is skipped. -/
theorem c6_add_columns_preserve_distinct_names_witness :
    ((addColumnsLoop [{ Name := str "a", «Type» := str "int", IsNullable := true }]
        [{ Name := str "b", «Type» := str "int", IsNullable := true },
         { Name := str "a", «Type» := str "text", IsNullable := true }]).map
      ColumnInfo.Name).Nodup :=
  c6_add_columns_preserve_distinct_names
    [{ Name := str "a", «Type» := str "int", IsNullable := true }]
    [{ Name := str "b", «Type» := str "int", IsNullable := true },
     { Name := str "a", «Type» := str "text", IsNullable := true }]
    (by decide) (by decide)

/-- C7 counterexample: a column declared `speed DOUBLE PRECISION` in a
CREATE TABLE body receives Go type `*string` — not the claimed optional
64-bit float — because only the first type token (`double`) is kept and it
matches no case of the type mapper; with `NOT NULL` it receives `string`,
not `float64`. -/
theorem c7_double_precision_counterexample :
    (lookupStore (processMigrationContent (str "CREATE TABLE t (speed DOUBLE PRECISION);") [])
        (str "t")).map (fun t => t.Columns.map fun c => (c.«Type», c.GoType)) =
      some [(str "double", str "*string")] ∧
    (lookupStore (processMigrationContent
        (str "CREATE TABLE t (speed DOUBLE PRECISION NOT NULL, x INT);") [])
        (str "t")).map (fun t => t.Columns.map fun c => (c.«Type», c.GoType)) =
      some [(str "double", str "string"), (str "int)", str "*string")] := by
  exact ⟨by decide, by decide⟩

/-- C7 amended: from a CREATE TABLE body the declared type `double
precision` is truncated to its first token `double`, which falls to the
string fallback (`*string` when nullable, `string` when `NOT NULL`); the
64-bit float mapping for `double precision` applies only when the full
lower-cased type name reaches the type mapper, as it does from the
live-catalog introspection path. -/
theorem c7_double_precision_amended :
    (lookupStore (processMigrationContent (str "CREATE TABLE t (speed DOUBLE PRECISION);") [])
        (str "t")).map (fun t => t.Columns.map ColumnInfo.GoType) = some [str "*string"] ∧
    (lookupStore (processMigrationContent
        (str "CREATE TABLE t (speed DOUBLE PRECISION NOT NULL, x INT);") [])
        (str "t")).map (fun t => (t.Columns.map ColumnInfo.GoType).take 1) =
      some [str "string"] ∧
    mapPostgreSQLTypeToGo (str "double precision") true = str "*float64" ∧
    mapPostgreSQLTypeToGo (str "double precision") false = str "float64" := by
  exact ⟨by decide, by decide, by decide, by decide⟩

/-- C10 witness: after `CREATE TABLE t (a INT);` then
`ALTER TABLE t ADD COLUMN b INT;`, a second `CREATE TABLE t (c TEXT);`
leaves `t` bound exactly to the fresh single-column schema of the second
CREATE statement. -/
theorem c10_create_replaces_schema_witness :
    lookupStore
      (processStatement
        (processMigrationContent (str "CREATE TABLE t (a INT);\nALTER TABLE t ADD COLUMN b INT;") [])
        (str "CREATE TABLE t (c TEXT);"))
      (cleanIdentifier (str "t")) =
      some ⟨cleanIdentifier (str "t"), createTableColumns (str "c TEXT)")⟩ :=
  (c10_create_replaces_schema
    (processMigrationContent (str "CREATE TABLE t (a INT);\nALTER TABLE t ADD COLUMN b INT;") [])
    (str "CREATE TABLE t (c TEXT);") (str "t") (str "c TEXT)") (by decide)).1

end Modelgen
